import Mathlib

/-!
# Verification of the Raft consensus simulation

Shallow embedding of `src/learning/expert/distributed-system.js`: the classes
`LogEntry`, `PersistentState`, `RaftNode` and `RaftCluster` become Lean
structures, and every method that mutates state becomes a pure function from
the old state to the new state together with the list of observable effects
(messages sent, timers reset or stopped, entries applied).  Timers are
modelled by a Boolean "armed" flag plus explicit timer actions; the JS
`setTimeout` callbacks firing is modelled as cluster events that may occur
whenever the corresponding timer is armed.  `Date.now()` timestamps and the
`stats` counters are bookkeeping the protocol never reads and are omitted.
JS array indices that can be `-1` (`commitIndex`, `lastApplied`,
`prevLogIndex`, `matchIndex`) are `Int`; terms are `Nat` (they start at 0 and
are only ever increased or adopted).  Where the JS would throw a `TypeError`
on an out-of-range log access (`undefined.term`), the embedding makes the
enclosing condition false; every place this matters is noted at the
definition.
-/

namespace Raft

/-- Node roles (source: `NodeState`, lines 27-31). -/
inductive NodeState
  | FOLLOWER
  | CANDIDATE
  | LEADER
deriving DecidableEq, Repr

/-- A log entry (source: `class LogEntry`, lines 49-56).  The `timestamp`
field is never read by the protocol and is omitted; commands are opaque
values, embedded as `Nat`. -/
structure LogEntry where
  term : Nat
  command : Nat
  index : Int
deriving DecidableEq, Repr

/-- Per-node persistent state (source: `class PersistentState`, lines 62-99). -/
structure PersistentState where
  nodeId : String
  currentTerm : Nat
  votedFor : Option String
  log : List LogEntry
deriving DecidableEq, Repr

/-- Source lines 70-73: adopting a term clears the vote. -/
def PersistentState.setTerm (s : PersistentState) (term : Nat) : PersistentState :=
  { s with currentTerm := term, votedFor := none }

/-- Source lines 75-77. -/
def PersistentState.vote (s : PersistentState) (candidateId : String) : PersistentState :=
  { s with votedFor := some candidateId }

/-- Source lines 79-81: `this.log.push(entry)`. -/
def PersistentState.appendEntry (s : PersistentState) (entry : LogEntry) : PersistentState :=
  { s with log := s.log ++ [entry] }

/-- Source lines 83-85: `this.log.length - 1` (so `-1` for the empty log). -/
def PersistentState.getLastLogIndex (s : PersistentState) : Int :=
  (s.log.length : Int) - 1

/-- Source lines 87-90: 0 for the empty log, else the last entry's term. -/
def PersistentState.getLastLogTerm (s : PersistentState) : Nat :=
  match s.log.getLast? with
  | none => 0
  | some e => e.term

/-- `log[index]` for a possibly negative `Int` index: out-of-range access
yields `undefined` in JS, here `none`. -/
def logEntryAt (log : List LogEntry) (index : Int) : Option LogEntry :=
  if h : 0 ≤ index ∧ index.toNat < log.length then some (log.get ⟨index.toNat, h.2⟩)
  else none

/-- Source lines 92-94: `this.log[index]`. -/
def PersistentState.getEntry (s : PersistentState) (index : Int) : Option LogEntry :=
  logEntryAt s.log index

/-- Source lines 96-98: `this.log = this.log.slice(0, index)`.  Every call
site passes a non-negative index, where `slice(0, i)` is `take i`. -/
def PersistentState.deleteEntriesFrom (s : PersistentState) (index : Int) : PersistentState :=
  { s with log := s.log.take index.toNat }

/-- Protocol messages (source: `MessageType`, lines 37-43, and the object
literals each sender builds). -/
inductive Message
  | REQUEST_VOTE (term : Nat) (candidateId : String) (lastLogIndex : Int) (lastLogTerm : Nat)
  | REQUEST_VOTE_RESPONSE (term : Nat) (voteGranted : Bool)
  | APPEND_ENTRIES (term : Nat) (leaderId : String) (prevLogIndex : Int) (prevLogTerm : Nat)
      (entries : List LogEntry) (leaderCommit : Int)
  | APPEND_ENTRIES_RESPONSE (term : Nat) (success : Bool) (matchIndex : Int)
deriving DecidableEq, Repr

/-- Observable side effects of a node method: timer manipulation, a message
handed to `cluster.send`, a broadcast handed to `cluster.broadcast`, or the
`commandApplied` event (instrumented with the log index being applied, i.e.
the value of `lastApplied` at emission time). -/
inductive Action
  | resetElectionTimer
  | stopElectionTimer
  | startHeartbeatTimer
  | stopHeartbeatTimer
  | send (toId : String) (message : Message)
  | broadcast (message : Message)
  | applied (index : Int) (entry : Option LogEntry)
deriving DecidableEq, Repr

/-- Insertion-ordered association list, mirroring a JS `Map`: `set` updates an
existing key in place and appends a new key at the end. -/
def mapSet {α : Type} (m : List (String × α)) (k : String) (v : α) : List (String × α) :=
  match m with
  | [] => [(k, v)]
  | (k', v') :: rest => if k' = k then (k, v) :: rest else (k', v') :: mapSet rest k v

/-- `Map.get`, `none` when the key is absent. -/
def mapGet {α : Type} (m : List (String × α)) (k : String) : Option α :=
  match m with
  | [] => none
  | (k', v') :: rest => if k' = k then some v' else mapGet rest k

/-- A JS `Set` of strings kept in insertion order: `add` is a no-op on a
member, otherwise appends. -/
def setAdd (s : List String) (x : String) : List String :=
  if x ∈ s then s else s ++ [x]

/-- A Raft node (source: `class RaftNode`, constructor lines 105-143).  The
timeout-duration configuration and the `stats` record are omitted; the two
timers are modelled by whether they are armed. -/
structure RaftNode where
  nodeId : String
  state : PersistentState
  currentState : NodeState
  commitIndex : Int
  lastApplied : Int
  nextIndex : List (String × Int)
  matchIndex : List (String × Int)
  electionTimerOn : Bool
  heartbeatTimerOn : Bool
deriving DecidableEq, Repr

/-- A freshly constructed node (source lines 105-143): follower, term 0,
`commitIndex = lastApplied = -1`, election timer armed. -/
def initialNode (id : String) : RaftNode :=
  { nodeId := id
    state := { nodeId := id, currentTerm := 0, votedFor := none, log := [] }
    currentState := NodeState.FOLLOWER
    commitIndex := -1
    lastApplied := -1
    nextIndex := []
    matchIndex := []
    electionTimerOn := true
    heartbeatTimerOn := false }

/-- Source lines 259-266: revert to follower for `term`, clear the vote, stop
heartbeats, restart the election timer. -/
def becomeFollower (n : RaftNode) (term : Nat) : RaftNode × List Action :=
  ({ n with
      currentState := NodeState.FOLLOWER
      state := n.state.setTerm term
      heartbeatTimerOn := false
      electionTimerOn := true },
    [Action.stopHeartbeatTimer, Action.resetElectionTimer])

/-- The single `commandApplied` loop iteration count: the JS `while` loop of
`applyCommittedEntries` runs exactly `(commitIndex - lastApplied)` times when
that is positive.  Structural recursion on that count as fuel. -/
def applyLoop : RaftNode → Nat → RaftNode × List Action
  | n, 0 => (n, [])
  | n, fuel + 1 =>
    if n.lastApplied < n.commitIndex then
      let la := n.lastApplied + 1
      let n1 := { n with lastApplied := la }
      let r := applyLoop n1 fuel
      (r.1, Action.applied la (n1.state.getEntry la) :: r.2)
    else (n, [])

/-- Source lines 433-440: advance `lastApplied` one index at a time up to
`commitIndex`, emitting `commandApplied` for the entry at each index. -/
def applyCommittedEntries (n : RaftNode) : RaftNode × List Action :=
  applyLoop n (n.commitIndex - n.lastApplied).toNat

/-- Source lines 318-337: build the `APPEND_ENTRIES` message for one follower
from `nextIndex`.  `nextIndex.get` is only ever called for peers present in
the map (they are inserted by `becomeLeader`); an absent peer defaults to 0
here where the JS would compute `NaN`. -/
def sendAppendEntries (n : RaftNode) (followerId : String) : List Action :=
  let ni := (mapGet n.nextIndex followerId).getD 0
  let prevLogIndex : Int := ni - 1
  let prevLogTerm : Nat :=
    if 0 ≤ prevLogIndex then ((n.state.getEntry prevLogIndex).map LogEntry.term).getD 0 else 0
  let entries := n.state.log.drop ni.toNat
  [Action.send followerId
    (Message.APPEND_ENTRIES n.state.currentTerm n.nodeId prevLogIndex prevLogTerm entries
      n.commitIndex)]

/-- Source lines 304-312: a leader sends `AppendEntries` to every other node;
any other role does nothing. -/
def sendHeartbeats (n : RaftNode) (allIds : List String) : List Action :=
  if n.currentState = NodeState.LEADER then
    ((allIds.filter (fun id => id ≠ n.nodeId)).map (sendAppendEntries n)).flatten
  else []

/-- Source lines 268-285: become leader, stop the election timer, initialise
`nextIndex` to the log length and `matchIndex` to `-1` for every peer, send a
first round of heartbeats and start the heartbeat timer. -/
def becomeLeader (n : RaftNode) (allIds : List String) : RaftNode × List Action :=
  let others := allIds.filter (fun id => id ≠ n.nodeId)
  let n1 : RaftNode :=
    { n with
        currentState := NodeState.LEADER
        electionTimerOn := false
        nextIndex := others.foldl (fun m id => mapSet m id (n.state.log.length : Int)) n.nextIndex
        matchIndex := others.foldl (fun m id => mapSet m id (-1 : Int)) n.matchIndex }
  let n2 := { n1 with heartbeatTimerOn := true }
  (n2, Action.stopElectionTimer :: sendHeartbeats n1 allIds ++ [Action.startHeartbeatTimer])

/-- Source lines 173-196: on election timeout become candidate, increment the
term, vote for self, broadcast `RequestVote`, restart the election timer. -/
def startElection (n : RaftNode) : RaftNode × List Action :=
  let n1 : RaftNode :=
    { n with
        currentState := NodeState.CANDIDATE
        state := (n.state.setTerm (n.state.currentTerm + 1)).vote n.nodeId
        electionTimerOn := true }
  (n1,
    [Action.broadcast
        (Message.REQUEST_VOTE n1.state.currentTerm n.nodeId n1.state.getLastLogIndex
          n1.state.getLastLogTerm),
      Action.resetElectionTimer])

/-- Source lines 198-233 (`handleRequestVote`). -/
def handleRequestVote (n : RaftNode) (term : Nat) (candidateId : String) (lastLogIndex : Int)
    (lastLogTerm : Nat) (senderId : String) : RaftNode × List Action :=
  if term < n.state.currentTerm then
    (n, [Action.send senderId (Message.REQUEST_VOTE_RESPONSE n.state.currentTerm false)])
  else
    let n1 := if n.state.currentTerm < term then (becomeFollower n term).1 else n
    let acts1 := if n.state.currentTerm < term then (becomeFollower n term).2 else []
    if (n1.state.votedFor = none ∨ n1.state.votedFor = some candidateId) ∧
        (n1.state.getLastLogTerm < lastLogTerm ∨
          (lastLogTerm = n1.state.getLastLogTerm ∧ n1.state.getLastLogIndex ≤ lastLogIndex)) then
      let n2 := { n1 with state := n1.state.vote candidateId, electionTimerOn := true }
      (n2,
        acts1 ++ [Action.resetElectionTimer,
          Action.send senderId (Message.REQUEST_VOTE_RESPONSE n2.state.currentTerm true)])
    else
      (n1, acts1 ++ [Action.send senderId (Message.REQUEST_VOTE_RESPONSE n1.state.currentTerm false)])

/-- Source lines 235-253 (`handleRequestVoteResponse`).  `votesReceived` is
the value `cluster.countVotesReceived(this.nodeId)` returns at handling time
and `allIds` the value of `cluster.getAllNodeIds()`;
`cluster.getNodeCount() = allIds.length`. -/
def handleRequestVoteResponse (n : RaftNode) (allIds : List String) (votesReceived : Nat)
    (term : Nat) (voteGranted : Bool) : RaftNode × List Action :=
  if n.currentState ≠ NodeState.CANDIDATE then (n, [])
  else if n.state.currentTerm < term then becomeFollower n term
  else if term = n.state.currentTerm ∧ voteGranted = true then
    if allIds.length / 2 + 1 ≤ votesReceived then becomeLeader n allIds else (n, [])
  else (n, [])

/-- The log-consistency check of `handleAppendEntries` (source lines
358-360): `prevLogIndex === -1`, or the receiver's log has an entry at
`prevLogIndex` whose term is `prevLogTerm`.  (For `prevLogIndex < -1`, which
no sender produces, the JS would throw on `undefined.term`; here the check is
false.) -/
def appendCheck (log : List LogEntry) (prevLogIndex : Int) (prevLogTerm : Nat) : Prop :=
  prevLogIndex = -1 ∨
    (prevLogIndex < (log.length : Int) ∧
      (logEntryAt log prevLogIndex).map LogEntry.term = some prevLogTerm)

instance (log : List LogEntry) (i : Int) (t : Nat) : Decidable (appendCheck log i t) := by
  unfold appendCheck; infer_instance

/-- The entry-appending loop of `handleAppendEntries` (source lines 365-376):
walk the incoming entries at positions `logIndex, logIndex+1, ...`; an
in-range position with a different term truncates the log there and appends
the incoming entry (an in-range position with the same term keeps the
existing entry); an out-of-range position appends. -/
def mergeEntries (log : List LogEntry) (logIndex : Nat) : List LogEntry → List LogEntry
  | [] => log
  | entry :: rest =>
    if h : logIndex < log.length then
      if (log.get ⟨logIndex, h⟩).term ≠ entry.term then
        mergeEntries (log.take logIndex ++ [entry]) (logIndex + 1) rest
      else
        mergeEntries log (logIndex + 1) rest
    else
      mergeEntries (log ++ [entry]) (logIndex + 1) rest

/-- Source lines 339-395 (`handleAppendEntries`). -/
def handleAppendEntries (n : RaftNode) (term : Nat) (leaderId : String) (prevLogIndex : Int)
    (prevLogTerm : Nat) (entries : List LogEntry) (leaderCommit : Int) (senderId : String) :
    RaftNode × List Action :=
  if term < n.state.currentTerm then
    (n, [Action.send senderId (Message.APPEND_ENTRIES_RESPONSE n.state.currentTerm false (-1))])
  else
    let n1 := if n.state.currentTerm < term then (becomeFollower n term).1 else n
    let acts1 := if n.state.currentTerm < term then (becomeFollower n term).2 else []
    let n2 := if n1.currentState = NodeState.CANDIDATE then (becomeFollower n1 term).1 else n1
    let acts2 :=
      acts1 ++ (if n1.currentState = NodeState.CANDIDATE then (becomeFollower n1 term).2 else [])
    let n3 := { n2 with electionTimerOn := true }
    let acts3 := acts2 ++ [Action.resetElectionTimer]
    if appendCheck n3.state.log prevLogIndex prevLogTerm then
      let n4 :=
        { n3 with
            state :=
              { n3.state with
                  log := mergeEntries n3.state.log (prevLogIndex + 1).toNat entries } }
      let n5 :=
        if n4.commitIndex < leaderCommit then
          { n4 with commitIndex := min leaderCommit n4.state.getLastLogIndex }
        else n4
      let r := if n4.commitIndex < leaderCommit then applyCommittedEntries n5 else (n5, [])
      (r.1,
        acts3 ++ r.2 ++
          [Action.send senderId
            (Message.APPEND_ENTRIES_RESPONSE r.1.state.currentTerm true
              (prevLogIndex + entries.length))])
    else
      (n3,
        acts3 ++
          [Action.send senderId (Message.APPEND_ENTRIES_RESPONSE n3.state.currentTerm false (-1))])

/-- JS `indices.sort((a, b) => b - a)`: numeric descending sort.  A sorted
rearrangement under a total antisymmetric order is unique, so insertion sort
produces the same list. -/
def sortDesc (l : List Int) : List Int :=
  l.insertionSort (fun a b => b ≤ a)

instance : IsTotal Int (fun a b => b ≤ a) := ⟨fun a b => le_total b a⟩

instance : IsTrans Int (fun a b => b ≤ a) := ⟨fun _ _ _ h1 h2 => le_trans h2 h1⟩

instance : IsRefl Int (fun a b => b ≤ a) := ⟨fun _ => le_refl _⟩

/-- Source lines 419-431 (`updateCommitIndex`): take the `matchIndex` values
plus the leader's own last log index, sort descending, pick the entry at
position `⌊len/2⌋`, and advance `commitIndex` to it when it is larger and its
entry carries the leader's current term.  (When that position's index were
beyond the leader's log the JS would throw on `undefined.term` before any
mutation; here the guard is false.) -/
def updateCommitIndex (n : RaftNode) : RaftNode × List Action :=
  let indices := n.matchIndex.map Prod.snd ++ [n.state.getLastLogIndex]
  let majorityIndex := (sortDesc indices).getD (indices.length / 2) 0
  if n.commitIndex < majorityIndex ∧
      (n.state.getEntry majorityIndex).map LogEntry.term = some n.state.currentTerm then
    applyCommittedEntries { n with commitIndex := majorityIndex }
  else (n, [])

/-- Source lines 397-417 (`handleAppendEntriesResponse`). -/
def handleAppendEntriesResponse (n : RaftNode) (senderId : String) (term : Nat) (success : Bool)
    (matchIdx : Int) : RaftNode × List Action :=
  if n.currentState ≠ NodeState.LEADER then (n, [])
  else if n.state.currentTerm < term then becomeFollower n term
  else if term = n.state.currentTerm then
    if success then
      updateCommitIndex
        { n with
            nextIndex := mapSet n.nextIndex senderId (matchIdx + 1)
            matchIndex := mapSet n.matchIndex senderId matchIdx }
    else
      let n1 :=
        { n with
            nextIndex :=
              mapSet n.nextIndex senderId (max 0 ((mapGet n.nextIndex senderId).getD 0 - 1)) }
      (n1, sendAppendEntries n1 senderId)
  else (n, [])

/-- Source lines 446-470 (`submitCommand`): a non-leader throws
`'Not the leader'` (leaving the node untouched); a leader appends
`{term: currentTerm, command, index: log.length}` to its own log and the
returned promise resolves with that index.  The asynchronous wait for
`lastApplied` to reach the index is outside the state transition. -/
def submitCommand (n : RaftNode) (command : Nat) : RaftNode × Except String Int :=
  if n.currentState ≠ NodeState.LEADER then (n, Except.error "Not the leader")
  else
    let entry : LogEntry := ⟨n.state.currentTerm, command, (n.state.log.length : Int)⟩
    ({ n with state := n.state.appendEntry entry }, Except.ok (n.state.log.length : Int))

/-- Source lines 476-493 (`handleMessage`): dispatch on the message type.
`allIds` and `votesReceived` are the cluster values the vote-response handler
reads. -/
def handleMessage (n : RaftNode) (allIds : List String) (votesReceived : Nat) (message : Message)
    (senderId : String) : RaftNode × List Action :=
  match message with
  | Message.REQUEST_VOTE term cid lli llt => handleRequestVote n term cid lli llt senderId
  | Message.REQUEST_VOTE_RESPONSE term g => handleRequestVoteResponse n allIds votesReceived term g
  | Message.APPEND_ENTRIES term lid pli plt es lc =>
    handleAppendEntries n term lid pli plt es lc senderId
  | Message.APPEND_ENTRIES_RESPONSE term s mi => handleAppendEntriesResponse n senderId term s mi

/-! ## The cluster (source: `class RaftCluster`, lines 520-617)

The cluster owns the nodes (a JS `Map` in creation order), the vote tally
`votes : Map candidateId -> Set voterId`, and the simulated network.  The
`NetworkSimulator` delivers each scheduled callback once, after a randomized
delay and with no ordering guarantee, so the in-flight messages are a list
and a reachable execution may deliver any of them next.  `receivedGrants` is
a ghost history (it influences nothing): it records, as `(candidate, term,
voter)`, the self-vote a candidate casts when it starts an election and every
delivered `RequestVote` response that arrives granted and carrying the
recipient's current term. -/

/-- Cluster state. -/
structure RaftCluster where
  nodes : List (String × RaftNode)
  votes : List (String × List String)
  network : List (String × String × Message)
  receivedGrants : List (String × Nat × String)
deriving DecidableEq, Repr

/-- Record a `(candidate, term, voter)` grant once. -/
def recordGrant (l : List (String × Nat × String)) (cand : String) (t : Nat) (voter : String) :
    List (String × Nat × String) :=
  if (cand, t, voter) ∈ l then l else l ++ [(cand, t, voter)]

/-- Source lines 538-552 (`RaftCluster.send`): schedule the message for
delivery and — synchronously, at send time — add the voter to the
recipient's tally when the message is a granted vote response. -/
def clusterSend (c : RaftCluster) (fromId toId : String) (message : Message) : RaftCluster :=
  let c1 := { c with network := c.network ++ [(fromId, toId, message)] }
  match message with
  | Message.REQUEST_VOTE_RESPONSE _ true =>
    { c1 with votes := mapSet c1.votes toId (setAdd ((mapGet c1.votes toId).getD []) fromId) }
  | _ => c1

/-- Source lines 554-564 (`RaftCluster.broadcast`): a `RequestVote` broadcast
resets the candidate's tally to its own self-vote, then the message is sent
to every other node in creation order. -/
def clusterBroadcast (c : RaftCluster) (fromId : String) (message : Message) : RaftCluster :=
  let c1 :=
    match message with
    | Message.REQUEST_VOTE _ _ _ _ => { c with votes := mapSet c.votes fromId [fromId] }
    | _ => c
  (c1.nodes.map Prod.fst).foldl
    (fun acc toId => if toId = fromId then acc else clusterSend acc fromId toId message) c1

/-- Source lines 566-568. -/
def countVotesReceived (c : RaftCluster) (nodeId : String) : Nat :=
  ((mapGet c.votes nodeId).getD []).length

/-- Route a node's emitted actions through the cluster: `send` and
`broadcast` reach `clusterSend`/`clusterBroadcast`; timer and applied actions
have no cluster-level effect. -/
def applyActions (c : RaftCluster) (fromId : String) : List Action → RaftCluster
  | [] => c
  | Action.send toId msg :: rest => applyActions (clusterSend c fromId toId msg) fromId rest
  | Action.broadcast msg :: rest => applyActions (clusterBroadcast c fromId msg) fromId rest
  | _ :: rest => applyActions c fromId rest

/-- The nondeterministic events of a cluster execution: an armed election
timer fires (`RaftNode.startElection`), an armed heartbeat timer fires on a
leader (`RaftNode.sendHeartbeats`), or the `k`-th in-flight message is
delivered (`NetworkSimulator` delivers in arbitrary order). -/
inductive ClusterEvent
  | electionTimeout (nodeId : String)
  | heartbeat (nodeId : String)
  | deliver (k : Nat)
deriving DecidableEq, Repr

/-- One step of the cluster simulation. -/
def clusterStep (c : RaftCluster) : ClusterEvent → RaftCluster
  | ClusterEvent.electionTimeout id =>
    match mapGet c.nodes id with
    | none => c
    | some n =>
      if n.electionTimerOn then
        let r := startElection n
        let c1 :=
          { c with
              nodes := mapSet c.nodes id r.1
              receivedGrants := recordGrant c.receivedGrants id r.1.state.currentTerm id }
        applyActions c1 id r.2
      else c
  | ClusterEvent.heartbeat id =>
    match mapGet c.nodes id with
    | none => c
    | some n =>
      if n.heartbeatTimerOn then applyActions c id (sendHeartbeats n (c.nodes.map Prod.fst))
      else c
  | ClusterEvent.deliver k =>
    match c.network.get? k with
    | none => c
    | some (fromId, toId, msg) =>
      let c1 := { c with network := c.network.eraseIdx k }
      match mapGet c1.nodes toId with
      | none => c1
      | some n =>
        let ghost :=
          match msg with
          | Message.REQUEST_VOTE_RESPONSE t true =>
            if t = n.state.currentTerm then recordGrant c1.receivedGrants toId t fromId
            else c1.receivedGrants
          | _ => c1.receivedGrants
        let r := handleMessage n (c1.nodes.map Prod.fst) (countVotesReceived c1 toId) msg fromId
        applyActions
          { c1 with nodes := mapSet c1.nodes toId r.1, receivedGrants := ghost } toId r.2

/-- Run a schedule of events. -/
def runEvents (c : RaftCluster) (events : List ClusterEvent) : RaftCluster :=
  events.foldl clusterStep c

/-- Source lines 521-536: a cluster of freshly constructed nodes. -/
def initialCluster (ids : List String) : RaftCluster :=
  { nodes := ids.map (fun id => (id, initialNode id))
    votes := []
    network := []
    receivedGrants := [] }

/-- The five-node cluster of the source's demonstration (`node-0` ..
`node-4`). -/
def cluster5 : RaftCluster :=
  initialCluster ["node-0", "node-1", "node-2", "node-3", "node-4"]

/-- Source lines 578-585 (`RaftCluster.getLeader`): the first node in
creation order whose role is `LEADER`. -/
def getLeader (c : RaftCluster) : Option RaftNode :=
  (c.nodes.find? (fun p => p.2.currentState == NodeState.LEADER)).map Prod.snd

/-- Source lines 591-597 (`RaftCluster.submitCommand`): throw
`'No leader elected'` when no node is in the Leader role, otherwise forward
to that leader's `submitCommand`. -/
def clusterSubmitCommand (c : RaftCluster) (command : Nat) : Except String (RaftNode × Int) :=
  match getLeader c with
  | none => Except.error "No leader elected"
  | some leader =>
    match submitCommand leader command with
    | (n1, Except.ok idx) => Except.ok (n1, idx)
    | (_, Except.error e) => Except.error e

/-! ## A concrete reachable execution with two leaders in the same term

The cluster's vote tally (`RaftCluster.votes`) is keyed by candidate only,
not by `(candidate, term)`, and voters are added when a granted response is
*sent*.  A candidate that starts a new election resets its tally, but grants
that followers send for its *previous* term after that reset still land in
the tally, and `handleRequestVoteResponse` only checks the term of the one
response that triggers the count.  The schedule below exploits this in the
five-node demonstration cluster: `node-2` votes for `node-0` in term 1 and
for `node-3` in term 2, yet ends up counted in both candidates' tallies, so
`node-0` and `node-3` both reach a count of 3 and both become `LEADER` in
term 2.  Every `electionTimeout` fires on a node whose election timer is
armed, and every `deliver` consumes an in-flight message, so this is a
reachable execution of the simulation (the network gives no ordering
guarantee). -/

def twoLeaderEvents : List ClusterEvent :=
  [ClusterEvent.electionTimeout "node-0", ClusterEvent.deliver 0,
    ClusterEvent.electionTimeout "node-0", ClusterEvent.deliver 0,
    ClusterEvent.electionTimeout "node-3", ClusterEvent.electionTimeout "node-3",
    ClusterEvent.deliver 3, ClusterEvent.deliver 13, ClusterEvent.deliver 13,
    ClusterEvent.deliver 13, ClusterEvent.deliver 13]

/-- The cluster state the schedule reaches. -/
def twoLeaderRun : RaftCluster := runEvents cluster5 twoLeaderEvents

/-! ## Observations and auxiliary notions used by the theorems -/

/-- The log indices carried by the `commandApplied` emissions in an action
list. -/
def appliedIndices (acts : List Action) : List Int :=
  acts.filterMap (fun a => match a with | Action.applied i _ => some i | _ => none)

/-- The consecutive integers `s, s+1, ..., s+len-1`. -/
def intRange (s : Int) : Nat → List Int
  | 0 => []
  | len + 1 => s :: intRange (s + 1) len

/-- Whether the one `RequestVote` response a `handleRequestVote` call sends
carries `voteGranted = true`. -/
def grantedResponse (r : RaftNode × List Action) : Bool :=
  r.2.any (fun a =>
    match a with
    | Action.send _ (Message.REQUEST_VOTE_RESPONSE _ g) => g
    | _ => false)

/-- Whether the one `AppendEntries` response a `handleAppendEntries` call
sends carries `success = true`. -/
def appendSuccess (r : RaftNode × List Action) : Bool :=
  r.2.any (fun a =>
    match a with
    | Action.send _ (Message.APPEND_ENTRIES_RESPONSE _ s _) => s
    | _ => false)

/-- The first position `j` in `entries` at which the appending loop stops
matching the existing log: the position `logIndex + j` is past the end of the
log, or holds an entry of a different term.  `none` when every entry matches
in place (the loop then changes nothing). -/
def firstDiff (log : List LogEntry) (logIndex : Nat) : List LogEntry → Option Nat
  | [] => none
  | entry :: rest =>
    if h : logIndex < log.length then
      if (log.get ⟨logIndex, h⟩).term = entry.term then
        (firstDiff log (logIndex + 1) rest).map (· + 1)
      else some 0
    else some 0

/-- The protocol operations a node can undergo: a timer firing, one of the
four message handlers, or a client submission.  Each carries the cluster
inputs the corresponding source method reads. -/
inductive NodeOp
  | startElection
  | sendHeartbeats (allIds : List String)
  | handleRequestVote (term : Nat) (candidateId : String) (lastLogIndex : Int) (lastLogTerm : Nat)
      (senderId : String)
  | handleRequestVoteResponse (allIds : List String) (votesReceived : Nat) (term : Nat)
      (voteGranted : Bool)
  | handleAppendEntries (term : Nat) (leaderId : String) (prevLogIndex : Int) (prevLogTerm : Nat)
      (entries : List LogEntry) (leaderCommit : Int) (senderId : String)
  | handleAppendEntriesResponse (senderId : String) (term : Nat) (success : Bool) (matchIndex : Int)
  | submitCommand (command : Nat)
deriving DecidableEq, Repr

/-- Run one protocol operation on a node. -/
def runNodeOp (n : RaftNode) : NodeOp → RaftNode × List Action
  | NodeOp.startElection => startElection n
  | NodeOp.sendHeartbeats allIds => (n, sendHeartbeats n allIds)
  | NodeOp.handleRequestVote term cand lli llt sid => handleRequestVote n term cand lli llt sid
  | NodeOp.handleRequestVoteResponse allIds votes term g =>
    handleRequestVoteResponse n allIds votes term g
  | NodeOp.handleAppendEntries term lid pli plt es lc sid =>
    handleAppendEntries n term lid pli plt es lc sid
  | NodeOp.handleAppendEntriesResponse sid term s mi => handleAppendEntriesResponse n sid term s mi
  | NodeOp.submitCommand cmd => ((submitCommand n cmd).1, [])

/-- Whether an operation is an incoming-`AppendEntries` handling. -/
def NodeOp.isAppendEntries : NodeOp → Bool
  | NodeOp.handleAppendEntries .. => true
  | _ => false

/-! ## Concrete inputs for witnesses and counterexamples -/

/-- A follower at term 1 with two committed term-1 entries. -/
def cexTruncNode : RaftNode :=
  { initialNode "node-2" with
      state :=
        { nodeId := "node-2", currentTerm := 1, votedFor := none
          log := [⟨1, 0, 0⟩, ⟨1, 1, 1⟩] }
      commitIndex := 1
      lastApplied := 1 }

/-- An `AppendEntries` from a term-2 leader whose single entry conflicts with
the follower's entry at index 0 (`prevLogIndex = -1`), with
`leaderCommit = 2`. -/
def cexTruncOp : NodeOp :=
  NodeOp.handleAppendEntries 2 "node-1" (-1) 0 [⟨2, 7, 0⟩] 2 "node-1"

/-- A follower at term 1 holding five term-1 entries, none committed. -/
def cexHeartbeatNode : RaftNode :=
  { initialNode "node-2" with
      state :=
        { nodeId := "node-2", currentTerm := 1, votedFor := none
          log := [⟨1, 0, 0⟩, ⟨1, 1, 1⟩, ⟨1, 2, 2⟩, ⟨1, 3, 3⟩, ⟨1, 4, 4⟩] } }

/-- A leader of term 1 with one entry, whose `matchIndex` records the entry
as replicated on two of its four peers. -/
def witLeaderNode : RaftNode :=
  { initialNode "node-0" with
      state :=
        { nodeId := "node-0", currentTerm := 1, votedFor := some "node-0"
          log := [⟨1, 5, 0⟩] }
      currentState := NodeState.LEADER
      nextIndex := [("node-1", 1), ("node-2", 1), ("node-3", 0), ("node-4", 0)]
      matchIndex := [("node-1", 0), ("node-2", 0), ("node-3", -1), ("node-4", -1)]
      electionTimerOn := false
      heartbeatTimerOn := true }

/-- C1.  Election safety fails on the code: after the reachable schedule
`twoLeaderEvents`, the distinct nodes `node-0` and `node-3` are both in the
`LEADER` role with `currentTerm = 2`. -/
theorem two_leaders_in_same_term :
    (mapGet twoLeaderRun.nodes "node-0").map RaftNode.currentState = some NodeState.LEADER ∧
    (mapGet twoLeaderRun.nodes "node-3").map RaftNode.currentState = some NodeState.LEADER ∧
    (mapGet twoLeaderRun.nodes "node-0").map (fun n => n.state.currentTerm) = some 2 ∧
    (mapGet twoLeaderRun.nodes "node-3").map (fun n => n.state.currentTerm) = some 2 ∧
    "node-0" ≠ "node-3" := by
  decide

/-- C6.  The majority rule for becoming leader fails on the code: in the same
reachable schedule, `node-0` becomes `LEADER` for term 2 although the vote
grants it received within term 2 — its self-vote plus the granted responses
delivered to it carrying term 2 (the ghost history `receivedGrants`) — number
only 2, below the required strict majority `⌊5/2⌋ + 1 = 3` of the 5 nodes.
(`becomeLeader` was triggered by the cluster tally, which still contained
`node-2`'s stale term-1 grant.) -/
theorem leader_without_current_term_majority :
    (mapGet twoLeaderRun.nodes "node-0").map RaftNode.currentState = some NodeState.LEADER ∧
    (mapGet twoLeaderRun.nodes "node-0").map (fun n => n.state.currentTerm) = some 2 ∧
    (twoLeaderRun.receivedGrants.filter
        (fun g => g.1 == "node-0" && g.2.1 == 2)).length = 2 ∧
    ¬ (twoLeaderRun.nodes.length / 2 + 1 ≤ 2) := by
  decide

/-! ## The apply loop: helper lemmas -/

lemma appliedIndices_applied_cons (i : Int) (e : Option LogEntry) (acts : List Action) :
    appliedIndices (Action.applied i e :: acts) = i :: appliedIndices acts := rfl

lemma intRange_mem : ∀ (len : Nat) (s i : Int), i ∈ intRange s len ↔ s ≤ i ∧ i < s + len := by
  intro len
  induction len with
  | zero => intro s i; simp [intRange]
  | succ m ih =>
    intro s i
    simp only [intRange, List.mem_cons, ih]
    push_cast
    omega

lemma intRange_chain' : ∀ (len : Nat) (s : Int), List.Chain' (· < ·) (intRange s len) := by
  intro len
  induction len with
  | zero => intro s; simp [intRange]
  | succ m ih =>
    intro s
    refine List.chain'_cons'.mpr ⟨?_, ih (s + 1)⟩
    intro y hy
    cases m with
    | zero => simp [intRange] at hy
    | succ m' =>
      simp only [intRange, List.head?_cons, Option.mem_def, Option.some.injEq] at hy
      omega

lemma intRange_nodup : ∀ (len : Nat) (s : Int), (intRange s len).Nodup := by
  intro len
  induction len with
  | zero => intro s; simp [intRange]
  | succ m ih =>
    intro s
    refine List.nodup_cons.mpr ⟨?_, ih (s + 1)⟩
    rw [intRange_mem]
    omega

lemma applyLoop_spec : ∀ (fuel : Nat) (n : RaftNode),
    (n.commitIndex - n.lastApplied).toNat = fuel →
    (applyLoop n fuel).1 = { n with lastApplied := max n.lastApplied n.commitIndex } ∧
    appliedIndices (applyLoop n fuel).2 = intRange (n.lastApplied + 1) fuel := by
  intro fuel
  induction fuel with
  | zero =>
    intro n h
    have hmax : max n.lastApplied n.commitIndex = n.lastApplied := max_eq_left (by omega)
    rw [hmax]
    exact ⟨rfl, rfl⟩
  | succ fuel ih =>
    intro n h
    have hlt : n.lastApplied < n.commitIndex := by omega
    have hstep : applyLoop n (fuel + 1) =
        ((applyLoop { n with lastApplied := n.lastApplied + 1 } fuel).1,
          Action.applied (n.lastApplied + 1)
              (RaftNode.state { n with lastApplied := n.lastApplied + 1 }
                |>.getEntry (n.lastApplied + 1)) ::
            (applyLoop { n with lastApplied := n.lastApplied + 1 } fuel).2) := by
      simp only [applyLoop, if_pos hlt]
    obtain ⟨ih1, ih2⟩ := ih { n with lastApplied := n.lastApplied + 1 } (by simp; omega)
    rw [hstep]
    have hmax : (n.lastApplied + 1) ⊔ n.commitIndex = n.lastApplied ⊔ n.commitIndex := by
      rw [max_eq_right (by omega : n.lastApplied + 1 ≤ n.commitIndex),
        max_eq_right (by omega : n.lastApplied ≤ n.commitIndex)]
    constructor
    · show (applyLoop { n with lastApplied := n.lastApplied + 1 } fuel).1 = _
      rw [ih1]
      show ({ n with lastApplied := (n.lastApplied + 1) ⊔ n.commitIndex } : RaftNode) = _
      rw [hmax]
    · show appliedIndices
          (Action.applied (n.lastApplied + 1) _ ::
            (applyLoop { n with lastApplied := n.lastApplied + 1 } fuel).2) = _
      rw [appliedIndices_applied_cons, ih2]
      rfl

/-- C8.  `applyCommittedEntries` fires `commandApplied` exactly once per
committed log index: the indices it emits are exactly the consecutive
integers from `lastApplied + 1` up to `commitIndex`, in strictly increasing
order with no index skipped or repeated, and the call advances `lastApplied`
to `commitIndex` (changing nothing else of the node). -/
theorem applyCommittedEntries_applies_each_committed_index_once (n : RaftNode) :
    (applyCommittedEntries n).1 = { n with lastApplied := max n.lastApplied n.commitIndex } ∧
    appliedIndices (applyCommittedEntries n).2 =
      intRange (n.lastApplied + 1) (n.commitIndex - n.lastApplied).toNat ∧
    List.Chain' (· < ·) (appliedIndices (applyCommittedEntries n).2) ∧
    (appliedIndices (applyCommittedEntries n).2).Nodup ∧
    ∀ i : Int,
      i ∈ appliedIndices (applyCommittedEntries n).2 ↔
        n.lastApplied < i ∧ i ≤ n.commitIndex := by
  obtain ⟨h1, h2⟩ := applyLoop_spec (n.commitIndex - n.lastApplied).toNat n rfl
  refine ⟨h1, h2, ?_, ?_, ?_⟩
  · rw [show (applyCommittedEntries n).2 = (applyLoop n (n.commitIndex - n.lastApplied).toNat).2
        from rfl, h2]
    exact intRange_chain' _ _
  · rw [show (applyCommittedEntries n).2 = (applyLoop n (n.commitIndex - n.lastApplied).toNat).2
        from rfl, h2]
    exact intRange_nodup _ _
  · intro i
    rw [show (applyCommittedEntries n).2 = (applyLoop n (n.commitIndex - n.lastApplied).toNat).2
        from rfl, h2, intRange_mem]
    omega

/-- `applyCommittedEntries` changes nothing of the node except `lastApplied`. -/
lemma applyCommittedEntries_fst (n : RaftNode) :
    (applyCommittedEntries n).1 = { n with lastApplied := max n.lastApplied n.commitIndex } :=
  (applyLoop_spec _ n rfl).1

/-! ## Descending sort: helper lemmas for the leader commit rule -/

lemma sortDesc_sorted (l : List Int) : (sortDesc l).Sorted (fun a b => b ≤ a) :=
  List.sorted_insertionSort _ l

lemma sortDesc_perm (l : List Int) : (sortDesc l).Perm l := List.perm_insertionSort _ l

lemma sortDesc_length (l : List Int) : (sortDesc l).length = l.length :=
  (sortDesc_perm l).length_eq

/-- In a descending-sorted list, at least `p + 1` elements are ≥ the element
at position `p`. -/
lemma countP_ge_position (l : List Int) (hs : l.Sorted (fun a b => b ≤ a)) (p : Nat)
    (hp : p < l.length) :
    p + 1 ≤ l.countP (fun x => decide (l[p] ≤ x)) := by
  have htake : (l.take (p + 1)).countP (fun x => decide (l[p] ≤ x)) =
      (l.take (p + 1)).length := by
    rw [List.countP_eq_length]
    intro a ha
    rw [List.mem_take_iff_getElem] at ha
    obtain ⟨i, hi, rfl⟩ := ha
    simp only [decide_eq_true_eq]
    have hrel := hs.rel_get_of_le (a := ⟨i, by omega⟩) (b := ⟨p, hp⟩)
      (by simp only [Fin.mk_le_mk]; omega)
    simpa using hrel
  calc p + 1 = (l.take (p + 1)).length := by rw [List.length_take]; omega
  _ = (l.take (p + 1)).countP (fun x => decide (l[p] ≤ x)) := htake.symm
  _ ≤ (l.take (p + 1)).countP (fun x => decide (l[p] ≤ x)) +
        (l.drop (p + 1)).countP (fun x => decide (l[p] ≤ x)) := Nat.le_add_right _ _
  _ = l.countP (fun x => decide (l[p] ≤ x)) := by
      rw [← List.countP_append, List.take_append_drop]

/-- C2.  When `updateCommitIndex` changes `commitIndex` at all, it advances
it (never retreats), the entry at the new `commitIndex` exists in the
leader's log and carries the leader's `currentTerm` (so an entry of an
earlier term is never committed by direct count), and the new index is
present on a strict majority of the cluster: at least `⌊N/2⌋ + 1` of the `N`
replication indices — the `matchIndex` the leader records for each of its
`N - 1` peers, plus its own last log index — are ≥ the new `commitIndex`. -/
theorem updateCommitIndex_majority_and_current_term (n : RaftNode)
    (h : (updateCommitIndex n).1.commitIndex ≠ n.commitIndex) :
    n.commitIndex < (updateCommitIndex n).1.commitIndex ∧
    (∃ e, n.state.getEntry ((updateCommitIndex n).1.commitIndex) = some e ∧
        e.term = n.state.currentTerm) ∧
    (n.matchIndex.length + 1) / 2 + 1 ≤
      (n.matchIndex.map Prod.snd ++ [n.state.getLastLogIndex]).countP
        (fun x => decide ((updateCommitIndex n).1.commitIndex ≤ x)) := by
  by_cases hguard :
      n.commitIndex <
          (sortDesc (n.matchIndex.map Prod.snd ++ [n.state.getLastLogIndex])).getD
            ((n.matchIndex.map Prod.snd ++ [n.state.getLastLogIndex]).length / 2) 0 ∧
        (n.state.getEntry
              ((sortDesc (n.matchIndex.map Prod.snd ++ [n.state.getLastLogIndex])).getD
                ((n.matchIndex.map Prod.snd ++ [n.state.getLastLogIndex]).length / 2) 0)).map
            LogEntry.term =
          some n.state.currentTerm
  · have hrun : (updateCommitIndex n).1.commitIndex =
        (sortDesc (n.matchIndex.map Prod.snd ++ [n.state.getLastLogIndex])).getD
          ((n.matchIndex.map Prod.snd ++ [n.state.getLastLogIndex]).length / 2) 0 := by
      unfold updateCommitIndex
      rw [if_pos hguard, applyCommittedEntries_fst]
    rw [hrun]
    obtain ⟨hlt, hterm⟩ := hguard
    refine ⟨hlt, ?_, ?_⟩
    · cases he : n.state.getEntry
          ((sortDesc (n.matchIndex.map Prod.snd ++ [n.state.getLastLogIndex])).getD
            ((n.matchIndex.map Prod.snd ++ [n.state.getLastLogIndex]).length / 2) 0) with
      | none => rw [he] at hterm; simp at hterm
      | some e =>
        refine ⟨e, rfl, ?_⟩
        rw [he] at hterm
        simpa using hterm
    · have hlen : (n.matchIndex.map Prod.snd ++ [n.state.getLastLogIndex]).length =
          n.matchIndex.length + 1 := by simp
      have hplt : (n.matchIndex.map Prod.snd ++ [n.state.getLastLogIndex]).length / 2 <
          (sortDesc (n.matchIndex.map Prod.snd ++ [n.state.getLastLogIndex])).length := by
        rw [sortDesc_length, hlen]
        omega
      have hget : (sortDesc (n.matchIndex.map Prod.snd ++ [n.state.getLastLogIndex])).getD
            ((n.matchIndex.map Prod.snd ++ [n.state.getLastLogIndex]).length / 2) 0 =
          (sortDesc (n.matchIndex.map Prod.snd ++
            [n.state.getLastLogIndex]))[(n.matchIndex.map Prod.snd ++
              [n.state.getLastLogIndex]).length / 2] :=
        List.getD_eq_getElem _ _ hplt
      have hcount := countP_ge_position _
        (sortDesc_sorted (n.matchIndex.map Prod.snd ++ [n.state.getLastLogIndex])) _ hplt
      rw [← hget] at hcount
      rw [(sortDesc_perm (n.matchIndex.map Prod.snd ++
        [n.state.getLastLogIndex])).countP_eq] at hcount
      calc (n.matchIndex.length + 1) / 2 + 1 =
          (n.matchIndex.map Prod.snd ++ [n.state.getLastLogIndex]).length / 2 + 1 := by
            rw [hlen]
      _ ≤ _ := hcount
  · exfalso
    apply h
    unfold updateCommitIndex
    rw [if_neg hguard]

/-- C2, witness: a term-1 leader of a five-node cluster whose single term-1
entry (index 0) is recorded on two of its four peers advances `commitIndex`
from `-1` to 0, and 3 of the 5 replication indices are ≥ 0. -/
theorem updateCommitIndex_majority_witness :
    witLeaderNode.commitIndex < (updateCommitIndex witLeaderNode).1.commitIndex ∧
    (∃ e, witLeaderNode.state.getEntry ((updateCommitIndex witLeaderNode).1.commitIndex) = some e ∧
        e.term = witLeaderNode.state.currentTerm) ∧
    (witLeaderNode.matchIndex.length + 1) / 2 + 1 ≤
      (witLeaderNode.matchIndex.map Prod.snd ++ [witLeaderNode.state.getLastLogIndex]).countP
        (fun x => decide ((updateCommitIndex witLeaderNode).1.commitIndex ≤ x)) :=
  updateCommitIndex_majority_and_current_term witLeaderNode (by decide)

/-! ## RequestVote: grant characterization -/

@[simp] lemma becomeFollower_state_log (n : RaftNode) (t : Nat) :
    (becomeFollower n t).1.state.log = n.state.log := rfl

@[simp] lemma becomeFollower_state_votedFor (n : RaftNode) (t : Nat) :
    (becomeFollower n t).1.state.votedFor = none := rfl

@[simp] lemma becomeFollower_state_currentTerm (n : RaftNode) (t : Nat) :
    (becomeFollower n t).1.state.currentTerm = t := rfl

@[simp] lemma becomeFollower_currentState (n : RaftNode) (t : Nat) :
    (becomeFollower n t).1.currentState = NodeState.FOLLOWER := rfl

@[simp] lemma becomeFollower_snd (n : RaftNode) (t : Nat) :
    (becomeFollower n t).2 = [Action.stopHeartbeatTimer, Action.resetElectionTimer] := rfl

@[simp] lemma becomeFollower_getLastLogTerm (n : RaftNode) (t : Nat) :
    (becomeFollower n t).1.state.getLastLogTerm = n.state.getLastLogTerm := rfl

@[simp] lemma becomeFollower_getLastLogIndex (n : RaftNode) (t : Nat) :
    (becomeFollower n t).1.state.getLastLogIndex = n.state.getLastLogIndex := rfl

@[simp] lemma becomeFollower_commitIndex (n : RaftNode) (t : Nat) :
    (becomeFollower n t).1.commitIndex = n.commitIndex := rfl

@[simp] lemma becomeFollower_lastApplied (n : RaftNode) (t : Nat) :
    (becomeFollower n t).1.lastApplied = n.lastApplied := rfl

@[simp] lemma electionTimerOn_set_state (X : RaftNode) (b : Bool) :
    ({ X with electionTimerOn := b } : RaftNode).state = X.state := rfl

@[simp] lemma electionTimerOn_set_commitIndex (X : RaftNode) (b : Bool) :
    ({ X with electionTimerOn := b } : RaftNode).commitIndex = X.commitIndex := rfl

@[simp] lemma electionTimerOn_set_lastApplied (X : RaftNode) (b : Bool) :
    ({ X with electionTimerOn := b } : RaftNode).lastApplied = X.lastApplied := rfl

@[simp] lemma becomeLeader_state (n : RaftNode) (ids : List String) :
    (becomeLeader n ids).1.state = n.state := rfl

@[simp] lemma becomeLeader_commitIndex (n : RaftNode) (ids : List String) :
    (becomeLeader n ids).1.commitIndex = n.commitIndex := rfl

/-- C3.  `handleRequestVote` grants the vote **iff** the requester's term is
≥ the receiver's current term, the receiver has not already voted for a
different candidate in its (possibly just adopted) current term — a strictly
greater incoming term clears `votedFor` via `becomeFollower` — and the
candidate's log is at least as up-to-date (last log term compared first, last
log index breaking ties, higher wins).  On a grant the receiver records the
vote and resets its election timer; a strictly greater term makes the
receiver adopt it and revert to follower whether or not it grants. -/
theorem handleRequestVote_grant_iff (n : RaftNode) (term : Nat) (cand : String) (lli : Int)
    (llt : Nat) (sid : String) :
    (grantedResponse (handleRequestVote n term cand lli llt sid) = true ↔
      n.state.currentTerm ≤ term ∧
        (n.state.currentTerm < term ∨ n.state.votedFor = none ∨ n.state.votedFor = some cand) ∧
        (n.state.getLastLogTerm < llt ∨
          (llt = n.state.getLastLogTerm ∧ n.state.getLastLogIndex ≤ lli))) ∧
    (grantedResponse (handleRequestVote n term cand lli llt sid) = true →
      (handleRequestVote n term cand lli llt sid).1.state.votedFor = some cand ∧
      Action.resetElectionTimer ∈ (handleRequestVote n term cand lli llt sid).2) ∧
    (n.state.currentTerm < term →
      (handleRequestVote n term cand lli llt sid).1.state.currentTerm = term ∧
      (handleRequestVote n term cand lli llt sid).1.currentState = NodeState.FOLLOWER) := by
  by_cases h1 : term < n.state.currentTerm
  · have hrun : handleRequestVote n term cand lli llt sid =
        (n, [Action.send sid (Message.REQUEST_VOTE_RESPONSE n.state.currentTerm false)]) := by
      unfold handleRequestVote
      rw [if_pos h1]
    have hg : grantedResponse (handleRequestVote n term cand lli llt sid) = false := by
      rw [hrun]; rfl
    rw [hg]
    exact ⟨⟨fun h => absurd h (by simp), fun h => absurd h.1 (by omega)⟩,
      fun h => absurd h (by simp), fun h => absurd h (by omega)⟩
  · by_cases h2 : n.state.currentTerm < term
    · by_cases h3 : ((becomeFollower n term).1.state.votedFor = none ∨
          (becomeFollower n term).1.state.votedFor = some cand) ∧
          ((becomeFollower n term).1.state.getLastLogTerm < llt ∨
            (llt = (becomeFollower n term).1.state.getLastLogTerm ∧
              (becomeFollower n term).1.state.getLastLogIndex ≤ lli))
      · have hrun : handleRequestVote n term cand lli llt sid =
            ({ (becomeFollower n term).1 with
                state := (becomeFollower n term).1.state.vote cand, electionTimerOn := true },
              [Action.stopHeartbeatTimer, Action.resetElectionTimer, Action.resetElectionTimer,
                Action.send sid (Message.REQUEST_VOTE_RESPONSE term true)]) := by
          unfold handleRequestVote
          simp only [if_neg h1, if_pos h2, if_pos h3]
          rfl
        rw [hrun]
        refine ⟨?_, ?_, ?_⟩
        · exact ⟨fun _ => ⟨by omega, Or.inl h2, by simpa using h3.2⟩, fun _ => rfl⟩
        · exact fun _ => ⟨rfl, by simp⟩
        · exact fun _ => ⟨rfl, rfl⟩
      · have hrun : handleRequestVote n term cand lli llt sid =
            ((becomeFollower n term).1,
              [Action.stopHeartbeatTimer, Action.resetElectionTimer,
                Action.send sid (Message.REQUEST_VOTE_RESPONSE term false)]) := by
          unfold handleRequestVote
          simp only [if_neg h1, if_pos h2, if_neg h3]
          rfl
        rw [hrun]
        refine ⟨?_, ?_, ?_⟩
        · constructor
          · intro hcontra
            exact absurd hcontra (by simp [grantedResponse])
          · rintro ⟨-, -, hup⟩
            refine absurd ⟨Or.inl ?_, ?_⟩ h3
            · exact becomeFollower_state_votedFor n term
            · simpa using hup
        · intro hcontra
          exact absurd hcontra (by simp [grantedResponse])
        · exact fun _ => ⟨rfl, rfl⟩
    · by_cases h3 : (n.state.votedFor = none ∨ n.state.votedFor = some cand) ∧
          (n.state.getLastLogTerm < llt ∨
            (llt = n.state.getLastLogTerm ∧ n.state.getLastLogIndex ≤ lli))
      · have hrun : handleRequestVote n term cand lli llt sid =
            ({ n with state := n.state.vote cand, electionTimerOn := true },
              [Action.resetElectionTimer,
                Action.send sid
                  (Message.REQUEST_VOTE_RESPONSE n.state.currentTerm true)]) := by
          unfold handleRequestVote
          simp only [if_neg h1, if_neg h2, if_pos h3]
          rfl
        rw [hrun]
        refine ⟨?_, ?_, ?_⟩
        · exact ⟨fun _ => ⟨by omega, Or.inr h3.1, h3.2⟩, fun _ => rfl⟩
        · exact fun _ => ⟨rfl, by simp⟩
        · exact fun hcontra => absurd hcontra h2
      · have hrun : handleRequestVote n term cand lli llt sid =
            (n, [Action.send sid
              (Message.REQUEST_VOTE_RESPONSE n.state.currentTerm false)]) := by
          unfold handleRequestVote
          simp only [if_neg h1, if_neg h2, if_neg h3]
          rfl
        rw [hrun]
        refine ⟨?_, ?_, ?_⟩
        · constructor
          · intro hcontra
            exact absurd hcontra (by simp [grantedResponse])
          · rintro ⟨-, hv, hup⟩
            exact absurd ⟨hv.resolve_left (by omega), hup⟩ h3
        · intro hcontra
          exact absurd hcontra (by simp [grantedResponse])
        · exact fun hcontra => absurd hcontra h2

/-! ## AppendEntries: stale-term frame property and rejection -/

/-- C10.  A stale-term `AppendEntries` (message term strictly below the
receiver's `currentTerm`) produces exactly a `success = false`,
`matchIndex = -1` response carrying the receiver's unchanged `currentTerm`,
and nothing else: the receiver's whole state — `currentTerm`, `votedFor`,
log, `commitIndex`, role, timers — is untouched and its election timer is
not reset. -/
theorem handleAppendEntries_stale_term_frame (n : RaftNode) (term : Nat) (lid : String)
    (pli : Int) (plt : Nat) (es : List LogEntry) (lc : Int) (sid : String)
    (h : term < n.state.currentTerm) :
    handleAppendEntries n term lid pli plt es lc sid =
      (n, [Action.send sid (Message.APPEND_ENTRIES_RESPONSE n.state.currentTerm false (-1))]) ∧
    (handleAppendEntries n term lid pli plt es lc sid).1 = n ∧
    Action.resetElectionTimer ∉ (handleAppendEntries n term lid pli plt es lc sid).2 := by
  have hrun : handleAppendEntries n term lid pli plt es lc sid =
      (n, [Action.send sid (Message.APPEND_ENTRIES_RESPONSE n.state.currentTerm false (-1))]) := by
    unfold handleAppendEntries
    rw [if_pos h]
  refine ⟨hrun, by rw [hrun], by rw [hrun]; simp⟩

/-- C10, witness: a term-1 follower receiving a term-0 `AppendEntries`. -/
theorem handleAppendEntries_stale_term_frame_witness :
    handleAppendEntries cexHeartbeatNode 0 "node-1" (-1) 0 [] 0 "node-1" =
      (cexHeartbeatNode,
        [Action.send "node-1"
          (Message.APPEND_ENTRIES_RESPONSE cexHeartbeatNode.state.currentTerm false (-1))]) ∧
    (handleAppendEntries cexHeartbeatNode 0 "node-1" (-1) 0 [] 0 "node-1").1 = cexHeartbeatNode ∧
    Action.resetElectionTimer ∉ (handleAppendEntries cexHeartbeatNode 0 "node-1" (-1) 0 [] 0 "node-1").2 :=
  handleAppendEntries_stale_term_frame cexHeartbeatNode 0 "node-1" (-1) 0 [] 0 "node-1" (by decide)

/-- C4.  `handleAppendEntries` answers `success = false` to a message term
below `currentTerm`, and — for a current-or-newer term — to a failed
log-consistency check at `prevLogIndex`/`prevLogTerm` (no entry there, or a
different term there); in the failed-check case the receiver's log is left
completely unchanged. -/
theorem handleAppendEntries_rejection (n : RaftNode) (term : Nat) (lid : String) (pli : Int)
    (plt : Nat) (es : List LogEntry) (lc : Int) (sid : String) :
    (term < n.state.currentTerm →
      appendSuccess (handleAppendEntries n term lid pli plt es lc sid) = false) ∧
    (n.state.currentTerm ≤ term → ¬ appendCheck n.state.log pli plt →
      appendSuccess (handleAppendEntries n term lid pli plt es lc sid) = false ∧
      (handleAppendEntries n term lid pli plt es lc sid).1.state.log = n.state.log) := by
  constructor
  · intro h
    have hrun : handleAppendEntries n term lid pli plt es lc sid =
        (n, [Action.send sid (Message.APPEND_ENTRIES_RESPONSE n.state.currentTerm false (-1))]) := by
      unfold handleAppendEntries
      rw [if_pos h]
    rw [hrun]
    rfl
  · intro hterm hcheck
    have hnc : ¬ (NodeState.FOLLOWER = NodeState.CANDIDATE) := by decide
    by_cases h2 : n.state.currentTerm < term
    · have hrun : handleAppendEntries n term lid pli plt es lc sid =
          ({ (becomeFollower n term).1 with electionTimerOn := true },
            [Action.stopHeartbeatTimer, Action.resetElectionTimer, Action.resetElectionTimer,
              Action.send sid (Message.APPEND_ENTRIES_RESPONSE term false (-1))]) := by
        unfold handleAppendEntries
        simp only [if_neg (show ¬ term < n.state.currentTerm by omega), if_pos h2,
          becomeFollower_currentState, if_neg hnc, electionTimerOn_set_state,
          becomeFollower_state_log]
        rw [if_neg hcheck]
        rfl
      rw [hrun]
      exact ⟨rfl, rfl⟩
    · by_cases h3 : n.currentState = NodeState.CANDIDATE
      · have hrun : handleAppendEntries n term lid pli plt es lc sid =
            ({ (becomeFollower n term).1 with electionTimerOn := true },
              [Action.stopHeartbeatTimer, Action.resetElectionTimer, Action.resetElectionTimer,
                Action.send sid (Message.APPEND_ENTRIES_RESPONSE term false (-1))]) := by
          unfold handleAppendEntries
          simp only [if_neg (show ¬ term < n.state.currentTerm by omega), if_neg h2, if_pos h3,
            electionTimerOn_set_state, becomeFollower_state_log]
          rw [if_neg hcheck]
          rfl
        rw [hrun]
        exact ⟨rfl, rfl⟩
      · have hrun : handleAppendEntries n term lid pli plt es lc sid =
            ({ n with electionTimerOn := true },
              [Action.resetElectionTimer,
                Action.send sid (Message.APPEND_ENTRIES_RESPONSE n.state.currentTerm false (-1))]) := by
          unfold handleAppendEntries
          simp only [if_neg (show ¬ term < n.state.currentTerm by omega), if_neg h2, if_neg h3,
            electionTimerOn_set_state]
          rw [if_neg hcheck]
          rfl
        rw [hrun]
        exact ⟨rfl, rfl⟩

/-- C4, witness: a term-1 follower with a five-entry log rejects (leaving
its log unchanged) an `AppendEntries` whose `prevLogIndex = 7` points past
the end of its log. -/
theorem handleAppendEntries_rejection_witness :
    appendSuccess (handleAppendEntries cexHeartbeatNode 1 "node-1" 7 1 [] 0 "node-1") = false ∧
    (handleAppendEntries cexHeartbeatNode 1 "node-1" 7 1 [] 0 "node-1").1.state.log =
      cexHeartbeatNode.state.log :=
  (handleAppendEntries_rejection cexHeartbeatNode 1 "node-1" 7 1 [] 0 "node-1").2
    (by decide) (by decide)

/-! ## AppendEntries: the accept path -/

@[simp] lemma applyCommittedEntries_state (m : RaftNode) :
    (applyCommittedEntries m).1.state = m.state := by rw [applyCommittedEntries_fst]

@[simp] lemma applyCommittedEntries_commitIndex (m : RaftNode) :
    (applyCommittedEntries m).1.commitIndex = m.commitIndex := by rw [applyCommittedEntries_fst]

/-- Past the end of the log, the appending loop appends every entry. -/
lemma mergeEntries_of_le : ∀ (entries log : List LogEntry) (start : Nat),
    log.length ≤ start → mergeEntries log start entries = log ++ entries := by
  intro entries
  induction entries with
  | nil => intro log start _; simp [mergeEntries]
  | cons e rest ih =>
    intro log start h
    rw [mergeEntries, dif_neg (by omega : ¬ start < log.length),
      ih (log ++ [e]) (start + 1) (by simp; omega)]
    simp

/-- The appending loop, characterized: nothing changes up to the first
mismatch (an in-range different-term entry, or the end of the log); from the
first mismatch the log is truncated there and the remaining incoming entries
are appended.  With no mismatch the log is unchanged. -/
lemma mergeEntries_eq : ∀ (entries log : List LogEntry) (start : Nat), start ≤ log.length →
    mergeEntries log start entries =
      (match firstDiff log start entries with
        | none => log
        | some j => log.take (start + j) ++ entries.drop j) := by
  intro entries
  induction entries with
  | nil => intro log start _; rfl
  | cons e rest ih =>
    intro log start hstart
    by_cases hlt : start < log.length
    · by_cases hterm : (log.get ⟨start, hlt⟩).term = e.term
      · have hme : mergeEntries log start (e :: rest) = mergeEntries log (start + 1) rest := by
          rw [mergeEntries, dif_pos hlt, if_neg (not_not_intro hterm)]
        have hfd : firstDiff log start (e :: rest) =
            (firstDiff log (start + 1) rest).map (· + 1) := by
          rw [firstDiff, dif_pos hlt, if_pos hterm]
        rw [hme, hfd, ih log (start + 1) (by omega)]
        cases hj : firstDiff log (start + 1) rest with
        | none => rfl
        | some j =>
          simp only [Option.map_some']
          rw [show start + 1 + j = start + (j + 1) by omega, List.drop_succ_cons]
      · have hme : mergeEntries log start (e :: rest) =
            mergeEntries (log.take start ++ [e]) (start + 1) rest := by
          rw [mergeEntries, dif_pos hlt, if_pos hterm]
        have hfd : firstDiff log start (e :: rest) = some 0 := by
          rw [firstDiff, dif_pos hlt, if_neg hterm]
        rw [hme, hfd,
          mergeEntries_of_le rest (log.take start ++ [e]) (start + 1)
            (by simp [List.length_take])]
        simp
    · have hme : mergeEntries log start (e :: rest) =
          mergeEntries (log ++ [e]) (start + 1) rest := by
        rw [mergeEntries, dif_neg hlt]
      have hfd : firstDiff log start (e :: rest) = some 0 := by
        rw [firstDiff, dif_neg hlt]
      rw [hme, hfd, mergeEntries_of_le rest (log ++ [e]) (start + 1) (by simp; omega)]
      have hlen : start = log.length := by omega
      simp [hlen]

/-- A passing consistency check places the first new entry's position within
the log (`prevLogIndex + 1 ≤ log.length`). -/
lemma appendCheck_start_le (log : List LogEntry) (pli : Int) (plt : Nat)
    (h : appendCheck log pli plt) : (pli + 1).toNat ≤ log.length := by
  rcases h with h | ⟨hlt, hat⟩
  · simp [h]
  · by_cases hr : 0 ≤ pli ∧ pli.toNat < log.length
    · omega
    · rw [logEntryAt, dif_neg hr] at hat
      simp at hat

/-- A non-stale `AppendEntries` whose consistency check passes: the log
becomes the loop's merge, the current term becomes the message term, and
`commitIndex` becomes `min leaderCommit (last log index after the merge)`
when `leaderCommit` is bigger, else stays. -/
lemma handleAppendEntries_accept_core (n : RaftNode) (term : Nat) (lid : String) (pli : Int)
    (plt : Nat) (es : List LogEntry) (lc : Int) (sid : String)
    (hterm : n.state.currentTerm ≤ term) (hcheck : appendCheck n.state.log pli plt) :
    (handleAppendEntries n term lid pli plt es lc sid).1.state.log =
        mergeEntries n.state.log (pli + 1).toNat es ∧
    (handleAppendEntries n term lid pli plt es lc sid).1.state.currentTerm = term ∧
    (n.commitIndex < lc →
      (handleAppendEntries n term lid pli plt es lc sid).1.commitIndex =
        min lc ((mergeEntries n.state.log (pli + 1).toNat es).length - 1)) ∧
    (lc ≤ n.commitIndex →
      (handleAppendEntries n term lid pli plt es lc sid).1.commitIndex = n.commitIndex) := by
  have hnc : ¬ (NodeState.FOLLOWER = NodeState.CANDIDATE) := by decide
  by_cases h2 : n.state.currentTerm < term
  · unfold handleAppendEntries
    simp only [if_neg (show ¬ term < n.state.currentTerm by omega), if_pos h2,
      becomeFollower_currentState, if_neg hnc, electionTimerOn_set_state,
      becomeFollower_state_log, if_pos hcheck]
    by_cases hc : n.commitIndex < lc
    · simp [hc, PersistentState.getLastLogIndex, becomeFollower_commitIndex]
    · simp [hc]
  · by_cases h3 : n.currentState = NodeState.CANDIDATE
    · unfold handleAppendEntries
      simp only [if_neg (show ¬ term < n.state.currentTerm by omega), if_neg h2, if_pos h3,
        electionTimerOn_set_state, becomeFollower_state_log, if_pos hcheck]
      by_cases hc : n.commitIndex < lc
      · simp [hc, PersistentState.getLastLogIndex]
      · simp [hc]
    · have hterm3 : term = n.state.currentTerm := by omega
      subst hterm3
      unfold handleAppendEntries
      simp only [if_neg (lt_irrefl n.state.currentTerm), if_neg h3,
        electionTimerOn_set_state, if_pos hcheck]
      by_cases hc : n.commitIndex < lc
      · simp [hc, PersistentState.getLastLogIndex]
      · simp [hc]

/-- A non-stale `AppendEntries` whose consistency check fails: the node's
log and `commitIndex` are unchanged and its current term becomes the message
term. -/
lemma handleAppendEntries_reject_core (n : RaftNode) (term : Nat) (lid : String) (pli : Int)
    (plt : Nat) (es : List LogEntry) (lc : Int) (sid : String)
    (hterm : n.state.currentTerm ≤ term) (hcheck : ¬ appendCheck n.state.log pli plt) :
    (handleAppendEntries n term lid pli plt es lc sid).1.state.log = n.state.log ∧
    (handleAppendEntries n term lid pli plt es lc sid).1.state.currentTerm = term ∧
    (handleAppendEntries n term lid pli plt es lc sid).1.commitIndex = n.commitIndex := by
  have hnc : ¬ (NodeState.FOLLOWER = NodeState.CANDIDATE) := by decide
  by_cases h2 : n.state.currentTerm < term
  · unfold handleAppendEntries
    simp only [if_neg (show ¬ term < n.state.currentTerm by omega), if_pos h2,
      becomeFollower_currentState, if_neg hnc, electionTimerOn_set_state,
      becomeFollower_state_log]
    rw [if_neg hcheck]
    exact ⟨rfl, rfl, rfl⟩
  · by_cases h3 : n.currentState = NodeState.CANDIDATE
    · unfold handleAppendEntries
      simp only [if_neg (show ¬ term < n.state.currentTerm by omega), if_neg h2, if_pos h3,
        electionTimerOn_set_state, becomeFollower_state_log]
      rw [if_neg hcheck]
      exact ⟨rfl, rfl, rfl⟩
    · unfold handleAppendEntries
      simp only [if_neg (show ¬ term < n.state.currentTerm by omega), if_neg h2, if_neg h3,
        electionTimerOn_set_state]
      rw [if_neg hcheck]
      exact ⟨rfl, show n.state.currentTerm = term by omega, rfl⟩

/-- C5 (amended).  When the consistency check passes, the receiver's log
becomes: unchanged when every incoming entry already matches in place, else
truncated at the first conflicting (or missing) position and the remaining
incoming entries appended; and when `leaderCommit` exceeds the receiver's
`commitIndex`, the new `commitIndex` is `min leaderCommit L` where `L` is the
receiver's **last log index after the append step** (not the index of the
last new entry, which the code does not use); otherwise `commitIndex` is
unchanged. -/
theorem handleAppendEntries_accept (n : RaftNode) (term : Nat) (lid : String) (pli : Int)
    (plt : Nat) (es : List LogEntry) (lc : Int) (sid : String)
    (hterm : n.state.currentTerm ≤ term) (hcheck : appendCheck n.state.log pli plt) :
    (handleAppendEntries n term lid pli plt es lc sid).1.state.log =
      (match firstDiff n.state.log (pli + 1).toNat es with
        | none => n.state.log
        | some j => n.state.log.take ((pli + 1).toNat + j) ++ es.drop j) ∧
    (n.commitIndex < lc →
      (handleAppendEntries n term lid pli plt es lc sid).1.commitIndex =
        min lc
          (((handleAppendEntries n term lid pli plt es lc sid).1.state.log.length : Int) - 1)) ∧
    (lc ≤ n.commitIndex →
      (handleAppendEntries n term lid pli plt es lc sid).1.commitIndex = n.commitIndex) := by
  have hmerge := mergeEntries_eq es n.state.log (pli + 1).toNat
    (appendCheck_start_le n.state.log pli plt hcheck)
  obtain ⟨hlog, -, hcpos, hcneg⟩ :=
    handleAppendEntries_accept_core n term lid pli plt es lc sid hterm hcheck
  refine ⟨?_, ?_, hcneg⟩
  · rw [hlog, hmerge]
  · intro hc
    rw [hcpos hc, hlog]

/-- C5, counterexample to the claim as stated: a follower whose five-entry
term-1 log already contains the one incoming entry (same index 0, same term
1, kept as-is) accepts `AppendEntries` with `leaderCommit = 3`.  The claim's
`min(leaderCommit, index of last new entry) = min(3, 0) = 0`, but the code
sets `commitIndex = min(leaderCommit, last log index) = min(3, 4) = 3`,
committing entries the message never carried. -/
theorem handleAppendEntries_commit_clamp_cex :
    (handleAppendEntries cexHeartbeatNode 1 "node-1" (-1) 0 [⟨1, 9, 0⟩] 3 "node-1").1.commitIndex
        = 3 ∧
    min 3 ((-1 : Int) + ([(⟨1, 9, 0⟩ : LogEntry)] : List LogEntry).length) = 0 ∧
    ((handleAppendEntries cexHeartbeatNode 1 "node-1" (-1) 0 [⟨1, 9, 0⟩] 3 "node-1").1.commitIndex
        ≠ min 3 ((-1 : Int) + ([(⟨1, 9, 0⟩ : LogEntry)] : List LogEntry).length)) := by
  decide

/-- C5, witness: the same call through the amended theorem — the log is
unchanged (every incoming entry matches in place) and `commitIndex` becomes
`min(3, 4) = 3`. -/
theorem handleAppendEntries_accept_witness :
    (handleAppendEntries cexHeartbeatNode 1 "node-1" (-1) 0 [⟨1, 9, 0⟩] 3 "node-1").1.state.log =
      (match firstDiff cexHeartbeatNode.state.log ((-1 : Int) + 1).toNat [⟨1, 9, 0⟩] with
        | none => cexHeartbeatNode.state.log
        | some j =>
          cexHeartbeatNode.state.log.take (((-1 : Int) + 1).toNat + j) ++
            ([(⟨1, 9, 0⟩ : LogEntry)] : List LogEntry).drop j) ∧
    (cexHeartbeatNode.commitIndex < 3 →
      (handleAppendEntries cexHeartbeatNode 1 "node-1" (-1) 0 [⟨1, 9, 0⟩] 3 "node-1").1.commitIndex =
        min 3
          (((handleAppendEntries cexHeartbeatNode 1 "node-1" (-1) 0 [⟨1, 9, 0⟩] 3
                "node-1").1.state.log.length : Int) - 1)) ∧
    ((3 : Int) ≤ cexHeartbeatNode.commitIndex →
      (handleAppendEntries cexHeartbeatNode 1 "node-1" (-1) 0 [⟨1, 9, 0⟩] 3 "node-1").1.commitIndex =
        cexHeartbeatNode.commitIndex) :=
  handleAppendEntries_accept cexHeartbeatNode 1 "node-1" (-1) 0 [⟨1, 9, 0⟩] 3 "node-1"
    (by decide) (by decide)

/-! ## Monotonicity of the protocol operations -/

lemma updateCommitIndex_state (n : RaftNode) : (updateCommitIndex n).1.state = n.state := by
  simp only [updateCommitIndex]
  split
  · rw [applyCommittedEntries_state]
  · rfl

lemma updateCommitIndex_commit_mono (n : RaftNode) :
    n.commitIndex ≤ (updateCommitIndex n).1.commitIndex := by
  simp only [updateCommitIndex]
  split
  next h => rw [applyCommittedEntries_commitIndex]; exact le_of_lt h.1
  next => exact le_refl _

lemma handleRequestVote_frame (n : RaftNode) (term : Nat) (cand : String) (lli : Int)
    (llt : Nat) (sid : String) :
    n.state.currentTerm ≤ (handleRequestVote n term cand lli llt sid).1.state.currentTerm ∧
    (handleRequestVote n term cand lli llt sid).1.commitIndex = n.commitIndex := by
  by_cases h1 : term < n.state.currentTerm
  · have hrun : handleRequestVote n term cand lli llt sid =
        (n, [Action.send sid (Message.REQUEST_VOTE_RESPONSE n.state.currentTerm false)]) := by
      unfold handleRequestVote
      rw [if_pos h1]
    rw [hrun]
    exact ⟨le_refl _, rfl⟩
  · by_cases h2 : n.state.currentTerm < term
    · by_cases h3 : ((becomeFollower n term).1.state.votedFor = none ∨
          (becomeFollower n term).1.state.votedFor = some cand) ∧
          ((becomeFollower n term).1.state.getLastLogTerm < llt ∨
            (llt = (becomeFollower n term).1.state.getLastLogTerm ∧
              (becomeFollower n term).1.state.getLastLogIndex ≤ lli))
      · have hrun : handleRequestVote n term cand lli llt sid =
            ({ (becomeFollower n term).1 with
                state := (becomeFollower n term).1.state.vote cand, electionTimerOn := true },
              [Action.stopHeartbeatTimer, Action.resetElectionTimer, Action.resetElectionTimer,
                Action.send sid (Message.REQUEST_VOTE_RESPONSE term true)]) := by
          unfold handleRequestVote
          simp only [if_neg h1, if_pos h2, if_pos h3]
          rfl
        rw [hrun]
        exact ⟨le_of_lt h2, rfl⟩
      · have hrun : handleRequestVote n term cand lli llt sid =
            ((becomeFollower n term).1,
              [Action.stopHeartbeatTimer, Action.resetElectionTimer,
                Action.send sid (Message.REQUEST_VOTE_RESPONSE term false)]) := by
          unfold handleRequestVote
          simp only [if_neg h1, if_pos h2, if_neg h3]
          rfl
        rw [hrun]
        exact ⟨le_of_lt h2, rfl⟩
    · by_cases h3 : (n.state.votedFor = none ∨ n.state.votedFor = some cand) ∧
          (n.state.getLastLogTerm < llt ∨
            (llt = n.state.getLastLogTerm ∧ n.state.getLastLogIndex ≤ lli))
      · have hrun : handleRequestVote n term cand lli llt sid =
            ({ n with state := n.state.vote cand, electionTimerOn := true },
              [Action.resetElectionTimer,
                Action.send sid
                  (Message.REQUEST_VOTE_RESPONSE n.state.currentTerm true)]) := by
          unfold handleRequestVote
          simp only [if_neg h1, if_neg h2, if_pos h3]
          rfl
        rw [hrun]
        exact ⟨le_refl _, rfl⟩
      · have hrun : handleRequestVote n term cand lli llt sid =
            (n, [Action.send sid
              (Message.REQUEST_VOTE_RESPONSE n.state.currentTerm false)]) := by
          unfold handleRequestVote
          simp only [if_neg h1, if_neg h2, if_neg h3]
          rfl
        rw [hrun]
        exact ⟨le_refl _, rfl⟩

lemma handleRequestVoteResponse_frame (n : RaftNode) (allIds : List String) (votes : Nat)
    (term : Nat) (g : Bool) :
    n.state.currentTerm ≤
      (handleRequestVoteResponse n allIds votes term g).1.state.currentTerm ∧
    (handleRequestVoteResponse n allIds votes term g).1.commitIndex = n.commitIndex := by
  unfold handleRequestVoteResponse
  by_cases h0 : n.currentState ≠ NodeState.CANDIDATE
  · simp only [if_pos h0]
    exact ⟨le_refl _, by simp⟩
  · simp only [if_neg h0]
    by_cases h1 : n.state.currentTerm < term
    · simp only [if_pos h1]
      exact ⟨le_of_lt h1, by simp⟩
    · simp only [if_neg h1]
      by_cases h2 : term = n.state.currentTerm ∧ g = true
      · simp only [if_pos h2]
        by_cases h3 : allIds.length / 2 + 1 ≤ votes
        · simp only [if_pos h3]
          exact ⟨le_refl _, by simp⟩
        · simp only [if_neg h3]
          exact ⟨le_refl _, by simp⟩
      · simp only [if_neg h2]
        exact ⟨le_refl _, by simp⟩

lemma handleAppendEntriesResponse_frame (n : RaftNode) (sid : String) (term : Nat) (s : Bool)
    (mi : Int) :
    n.state.currentTerm ≤ (handleAppendEntriesResponse n sid term s mi).1.state.currentTerm ∧
    n.commitIndex ≤ (handleAppendEntriesResponse n sid term s mi).1.commitIndex := by
  unfold handleAppendEntriesResponse
  by_cases h0 : n.currentState ≠ NodeState.LEADER
  · simp only [if_pos h0]
    exact ⟨le_refl _, le_refl _⟩
  · simp only [if_neg h0]
    by_cases h1 : n.state.currentTerm < term
    · simp only [if_pos h1]
      exact ⟨le_of_lt h1, le_refl _⟩
    · simp only [if_neg h1]
      by_cases h2 : term = n.state.currentTerm
      · simp only [if_pos h2]
        by_cases hs : s = true
        · simp only [if_pos hs]
          constructor
          · rw [updateCommitIndex_state]
          · exact updateCommitIndex_commit_mono _
        · simp only [if_neg hs]
          exact ⟨le_refl _, le_refl _⟩
      · simp only [if_neg h2]
        exact ⟨le_refl _, le_refl _⟩

/-- C7 (amended).  Across every protocol operation `currentTerm` never
decreases; and `commitIndex` never decreases on every operation *except*
that `handleAppendEntries` can lower it when the accepted entries leave the
receiver's log shorter than the old `commitIndex`: whenever the operation is
not an incoming-`AppendEntries` handling, or the post-operation last log
index is still ≥ the old `commitIndex`, `commitIndex` does not decrease. -/
theorem runNodeOp_monotonic (n : RaftNode) (op : NodeOp) :
    n.state.currentTerm ≤ (runNodeOp n op).1.state.currentTerm ∧
    (op.isAppendEntries = false ∨
        n.commitIndex ≤ ((runNodeOp n op).1.state.log.length : Int) - 1 →
      n.commitIndex ≤ (runNodeOp n op).1.commitIndex) := by
  cases op with
  | startElection =>
    exact ⟨Nat.le_succ _, fun _ => le_refl _⟩
  | sendHeartbeats ids =>
    exact ⟨le_refl _, fun _ => le_refl _⟩
  | handleRequestVote term cand lli llt sid =>
    obtain ⟨h1, h2⟩ := handleRequestVote_frame n term cand lli llt sid
    exact ⟨h1, fun _ => le_of_eq h2.symm⟩
  | handleRequestVoteResponse allIds votes term g =>
    obtain ⟨h1, h2⟩ := handleRequestVoteResponse_frame n allIds votes term g
    exact ⟨h1, fun _ => le_of_eq h2.symm⟩
  | handleAppendEntries term lid pli plt es lc sid =>
    by_cases hstale : term < n.state.currentTerm
    · have hrun : handleAppendEntries n term lid pli plt es lc sid =
          (n, [Action.send sid
            (Message.APPEND_ENTRIES_RESPONSE n.state.currentTerm false (-1))]) := by
        unfold handleAppendEntries
        rw [if_pos hstale]
      show n.state.currentTerm ≤
          (handleAppendEntries n term lid pli plt es lc sid).1.state.currentTerm ∧
        ((NodeOp.handleAppendEntries term lid pli plt es lc sid).isAppendEntries = false ∨
            n.commitIndex ≤
              ((handleAppendEntries n term lid pli plt es lc sid).1.state.log.length : Int) - 1 →
          n.commitIndex ≤ (handleAppendEntries n term lid pli plt es lc sid).1.commitIndex)
      rw [hrun]
      exact ⟨le_refl _, fun _ => le_refl _⟩
    · have hterm : n.state.currentTerm ≤ term := by omega
      by_cases hcheck : appendCheck n.state.log pli plt
      · obtain ⟨hlog, hct, hcpos, hcneg⟩ :=
          handleAppendEntries_accept_core n term lid pli plt es lc sid hterm hcheck
        constructor
        · show n.state.currentTerm ≤
            (handleAppendEntries n term lid pli plt es lc sid).1.state.currentTerm
          omega
        · intro hyp
          show n.commitIndex ≤ (handleAppendEntries n term lid pli plt es lc sid).1.commitIndex
          by_cases hc : n.commitIndex < lc
          · rw [hcpos hc]
            rcases hyp with habs | hle
            · simp [NodeOp.isAppendEntries] at habs
            · refine le_min (le_of_lt hc) ?_
              have : ((runNodeOp n
                  (NodeOp.handleAppendEntries term lid pli plt es lc sid)).1.state.log.length :
                    Int) - 1 =
                  ((mergeEntries n.state.log (pli + 1).toNat es).length : Int) - 1 := by
                show ((handleAppendEntries n term lid pli plt es lc
                    sid).1.state.log.length : Int) - 1 = _
                rw [hlog]
              omega
          · rw [hcneg (by omega)]
      · obtain ⟨hlog, hct, hci⟩ :=
          handleAppendEntries_reject_core n term lid pli plt es lc sid hterm hcheck
        constructor
        · show n.state.currentTerm ≤
            (handleAppendEntries n term lid pli plt es lc sid).1.state.currentTerm
          omega
        · intro _
          show n.commitIndex ≤ (handleAppendEntries n term lid pli plt es lc sid).1.commitIndex
          omega
  | handleAppendEntriesResponse sid term s mi =>
    obtain ⟨h1, h2⟩ := handleAppendEntriesResponse_frame n sid term s mi
    exact ⟨h1, fun _ => h2⟩
  | submitCommand cmd =>
    have hkey : (runNodeOp n (NodeOp.submitCommand cmd)).1.state.currentTerm =
        n.state.currentTerm ∧
        (runNodeOp n (NodeOp.submitCommand cmd)).1.commitIndex = n.commitIndex := by
      show ((submitCommand n cmd).1.state.currentTerm = n.state.currentTerm ∧
        (submitCommand n cmd).1.commitIndex = n.commitIndex)
      unfold submitCommand
      split
      · exact ⟨rfl, rfl⟩
      · exact ⟨rfl, rfl⟩
    exact ⟨le_of_eq hkey.1.symm, fun _ => le_of_eq hkey.2.symm⟩

/-- C7, counterexample to the claim as stated: a follower at term 1 with two
committed term-1 entries (`commitIndex = 1`) handles an `AppendEntries` from
a term-2 leader whose single conflicting entry truncates the whole log; the
code then sets `commitIndex = min(2, 0) = 0 < 1` — `commitIndex`
decreases. -/
theorem commitIndex_decrease_cex :
    (runNodeOp cexTruncNode cexTruncOp).1.commitIndex < cexTruncNode.commitIndex := by
  decide

/-! ## Client submission -/

/-- C9.  `RaftCluster.submitCommand` fails with `'No leader elected'` when no
node is in the Leader role, and otherwise forwards the command to the
leader's `submitCommand`; `RaftNode.submitCommand` on a node that is not
Leader fails with `'Not the leader'` and leaves the node (in particular its
log) completely unchanged. -/
theorem submitCommand_requires_leader (c : RaftCluster) (cmd : Nat) (n : RaftNode) :
    ((∀ p ∈ c.nodes, p.2.currentState ≠ NodeState.LEADER) →
      clusterSubmitCommand c cmd = Except.error "No leader elected") ∧
    (∀ L, getLeader c = some L →
      clusterSubmitCommand c cmd =
        (match submitCommand L cmd with
          | (n1, Except.ok idx) => Except.ok (n1, idx)
          | (_, Except.error e) => Except.error e)) ∧
    (n.currentState ≠ NodeState.LEADER →
      submitCommand n cmd = (n, Except.error "Not the leader")) := by
  refine ⟨?_, ?_, ?_⟩
  · intro h
    have hnone : c.nodes.find? (fun p => p.2.currentState == NodeState.LEADER) = none := by
      rw [List.find?_eq_none]
      intro x hx
      simpa using h x hx
    unfold clusterSubmitCommand getLeader
    rw [hnone]
    rfl
  · intro L hL
    unfold clusterSubmitCommand
    rw [hL]
  · intro h
    unfold submitCommand
    rw [if_pos h]

end Raft
